import Mathlib

/-
Verification development for the recursive copy polyfill of fs-copy-compat
(src/cpSync.ts).  The filesystem is modelled as a finite association list
from canonical absolute paths (lists of name segments) to entries; the
path library (resolve, relative, dirname, join) and the Node filesystem
primitives used by the polyfill (lstatSync, statSync, existsSync,
realpathSync, readlinkSync, readdirSync, unlinkSync, symlinkSync,
mkdirp.sync, copyFileSync) are embedded as fueled total functions over
that state.  polyfillCpSync and getSymlinkType mirror the source line by
line; definitions whose name starts with spec are written from the
wording of the specification instead, for refinement comparisons.
-/

set_option autoImplicit false

/-- Kind of filesystem entry, as reported by the Stats object predicates
isFile, isDirectory, isSymbolicLink; other covers FIFOs, sockets and
device nodes, for which all three predicates are false. -/
inductive FKind where
  | file
  | dir
  | symlink
  | other
deriving DecidableEq, Repr

/-- Path expression, the embedding of a path string: an absolute flag and
the list of name segments (segments may be empty, a dot or a dot-dot for
raw, unnormalized strings such as symlink targets). -/
structure PathExpr where
  absolute : Bool
  segs : List String
deriving DecidableEq, Repr

/-- Entry stored in the filesystem map: a regular file with content, a
directory, a symbolic link holding its raw target string, or some other
node kind (FIFO, socket, device). -/
inductive Entry where
  | file (content : String)
  | dir
  | link (target : PathExpr)
  | other
deriving DecidableEq, Repr

/-- The filesystem: a finite map from canonical absolute paths (segment
lists without dots) to entries. -/
abbrev FS := List (List String × Entry)

def kindOf : Entry → FKind
  | Entry.file _ => FKind.file
  | Entry.dir => FKind.dir
  | Entry.link _ => FKind.symlink
  | Entry.other => FKind.other

/-- Errors produced by the embedded filesystem primitives.  The fuel
error marks exhaustion of the step budget (the real counterpart is the
ELOOP failure on symlink cycles, or a stack overflow of the recursion). -/
inductive PrimErr where
  | enoent
  | enotdir
  | eisdir
  | eexist
  | einval
  | fuel
deriving DecidableEq, Repr

/-- Errors surfaced by the polyfill: either a primitive failure passed
through unmodified, or the handcrafted EISDIR error the polyfill itself
constructs for a directory source without the recursive option, carrying
the offending source path (cpSync.ts lines 103-107). -/
inductive Err where
  | prim (e : PrimErr)
  | eisdir (src : PathExpr)
deriving DecidableEq, Repr

def lookupFS : FS → List String → Option Entry
  | [], _ => none
  | kv :: rest, p => if kv.1 = p then some kv.2 else lookupFS rest p

/-- Insert or overwrite the entry at a key, keeping the position of an
existing key and appending a new key at the end. -/
def setFS : FS → List String → Entry → FS
  | [], p, e => [(p, e)]
  | kv :: rest, p, e => if kv.1 = p then (p, e) :: rest else kv :: setFS rest p e

def removeFS : FS → List String → FS
  | [], _ => []
  | kv :: rest, p => if kv.1 = p then removeFS rest p else kv :: removeFS rest p

/-- Names of the immediate children of a canonical directory path, in map
order (the embedding of readdirSync listing order). -/
def childNames (fs : FS) (p : List String) : List String :=
  fs.filterMap (fun kv => if kv.1.dropLast = p ∧ kv.1 ≠ p then kv.1.getLast? else none)

/-- Embedding of the path module normalization performed by resolve:
drop empty and dot segments, let dot-dot pop the previous segment
(clamped at the root). -/
def normalizeSegs (segs : List String) : List String :=
  segs.foldl
    (fun acc seg =>
      if seg = "" ∨ seg = "." then acc
      else if seg = ".." then acc.dropLast
      else acc ++ [seg])
    []

/-- Embedding of path.dirname on a clean path string: drop the final
segment; the root keeps the root and a single relative segment becomes
the dot directory (empty relative segment list). -/
def dirnamePE (p : PathExpr) : PathExpr :=
  PathExpr.mk p.absolute p.segs.dropLast

/-- Embedding of path.join of a path with one entry name. -/
def joinPE (p : PathExpr) (name : String) : PathExpr :=
  PathExpr.mk p.absolute (p.segs ++ [name])

/-- Drop the longest common leading run of two segment lists, returning
the two remainders. -/
def dropCommon : List String → List String → List String × List String
  | a :: as, b :: bs =>
    if a = b then dropCommon as bs else (a :: as, b :: bs)
  | as, bs => (as, bs)

/-- Embedding of path.relative on two canonical absolute segment lists:
walk up from the first past the common ancestor, then down into the
second.  The empty list is the empty relative string. -/
def relativeSegs (fromSegs toSegs : List String) : List String :=
  let p := dropCommon fromSegs toSegs
  p.1.map (fun _ => "..") ++ p.2

/-- Path lookup with symlink traversal, the common core of the stat
family.  cur is a canonical absolute path already realized; the segments
still to process follow.  Intermediate symlinks are always followed; a
symlink in final position is followed only when followLast is true.
Fuel bounds link chasing (cycles exhaust it, as ELOOP does). -/
def realizeAux : Nat → FS → List String → List String → Bool → Except PrimErr (List String)
  | 0, _, _, _, _ => Except.error PrimErr.fuel
  | Nat.succ f, fs, cur, segsLeft, followLast =>
    match segsLeft with
    | [] => Except.ok cur
    | seg :: rest =>
      if seg = "" ∨ seg = "." then realizeAux f fs cur rest followLast
      else if seg = ".." then realizeAux f fs cur.dropLast rest followLast
      else
        match lookupFS fs (cur ++ [seg]) with
        | none => Except.error PrimErr.enoent
        | some Entry.dir => realizeAux f fs (cur ++ [seg]) rest followLast
        | some (Entry.link t) =>
          if rest = [] ∧ followLast = false then Except.ok (cur ++ [seg])
          else realizeAux f fs (if t.absolute then [] else cur) (t.segs ++ rest) followLast
        | some _ =>
          if rest = [] then Except.ok (cur ++ [seg])
          else Except.error PrimErr.enotdir

/-- Resolve a path expression against the filesystem (working directory
is the root) and return the entry found there. -/
def statNode (fuel : Nat) (fs : FS) (p : PathExpr) (followLast : Bool) : Except PrimErr Entry :=
  match realizeAux fuel fs [] p.segs followLast with
  | Except.error e => Except.error e
  | Except.ok c =>
    match lookupFS fs c with
    | some e => Except.ok e
    | none => Except.error PrimErr.enoent

/-- Embedding of fs.lstatSync restricted to the kind predicates the
polyfill consults: the final symlink is not followed. -/
def lstatKind (fuel : Nat) (fs : FS) (p : PathExpr) : Except PrimErr FKind :=
  match statNode fuel fs p false with
  | Except.ok e => Except.ok (kindOf e)
  | Except.error e => Except.error e

/-- Embedding of fs.statSync restricted to the kind predicates: all
symlinks are followed. -/
def statKind (fuel : Nat) (fs : FS) (p : PathExpr) : Except PrimErr FKind :=
  match statNode fuel fs p true with
  | Except.ok e => Except.ok (kindOf e)
  | Except.error e => Except.error e

/-- Embedding of fs.existsSync: follows symlinks and reports false on any
failure, so a dangling link does not exist under this predicate. -/
def existsSyncFS (fuel : Nat) (fs : FS) (p : PathExpr) : Bool :=
  match statNode fuel fs p true with
  | Except.ok _ => true
  | Except.error _ => false

/-- Embedding of fs.realpathSync: the canonical absolute path after
following every symlink, failing when the path does not exist. -/
def realpathFS (fuel : Nat) (fs : FS) (p : PathExpr) : Except PrimErr (List String) :=
  match realizeAux fuel fs [] p.segs true with
  | Except.error e => Except.error e
  | Except.ok c =>
    match lookupFS fs c with
    | some _ => Except.ok c
    | none => Except.error PrimErr.enoent

/-- Embedding of fs.readlinkSync: the raw stored target of the symlink at
the path, not following the final link. -/
def readlinkFS (fuel : Nat) (fs : FS) (p : PathExpr) : Except PrimErr PathExpr :=
  match realizeAux fuel fs [] p.segs false with
  | Except.error e => Except.error e
  | Except.ok c =>
    match lookupFS fs c with
    | some (Entry.link t) => Except.ok t
    | some _ => Except.error PrimErr.einval
    | none => Except.error PrimErr.enoent

/-- Embedding of fs.unlinkSync: remove the entry without following the
final link; removing a directory fails. -/
def unlinkFS (fuel : Nat) (fs : FS) (p : PathExpr) : Except PrimErr FS :=
  match realizeAux fuel fs [] p.segs false with
  | Except.error e => Except.error e
  | Except.ok c =>
    match lookupFS fs c with
    | some Entry.dir => Except.error PrimErr.eisdir
    | some _ => Except.ok (removeFS fs c)
    | none => Except.error PrimErr.enoent

/-- Hint passed to symlink creation on platforms that require a typed
link (cpSync.ts getSymlinkType). -/
inductive SymlinkKindHint where
  | file
  | dir
  | junction
deriving DecidableEq, Repr

/-- Embedding of fs.symlinkSync: the parent directory of the new link
must exist (following links); creation fails with EEXIST when any entry,
including a dangling link, already occupies the path.  The type hint is
accepted and ignored, as on platforms without typed links. -/
def symlinkFS (fuel : Nat) (fs : FS) (target : PathExpr) (p : PathExpr)
    (_hint : SymlinkKindHint) : Except PrimErr FS :=
  match realizeAux fuel fs [] (dirnamePE p).segs true with
  | Except.error e => Except.error e
  | Except.ok pd =>
    match lookupFS fs pd with
    | some Entry.dir =>
      (match p.segs.getLast? with
       | none => Except.error PrimErr.eexist
       | some nm =>
         if (lookupFS fs (pd ++ [nm])).isSome then Except.error PrimErr.eexist
         else Except.ok (setFS fs (pd ++ [nm]) (Entry.link target)))
    | some _ => Except.error PrimErr.enotdir
    | none => Except.error PrimErr.enoent

/-- Embedding of the directory-ensure collaborator (mkdirp.sync), per its
contract in the specification: create the directory and every missing
ancestor, tolerate directories that already exist, follow symlinks to
directories along the way, fail on a non-directory obstruction. -/
def mkdirpAux : Nat → FS → List String → List String → Except PrimErr FS
  | 0, _, _, _ => Except.error PrimErr.fuel
  | Nat.succ f, fs, cur, segsLeft =>
    match segsLeft with
    | [] => Except.ok fs
    | seg :: rest =>
      if seg = "" ∨ seg = "." then mkdirpAux f fs cur rest
      else if seg = ".." then mkdirpAux f fs cur.dropLast rest
      else
        match lookupFS fs (cur ++ [seg]) with
        | none => mkdirpAux f (setFS fs (cur ++ [seg]) Entry.dir) (cur ++ [seg]) rest
        | some Entry.dir => mkdirpAux f fs (cur ++ [seg]) rest
        | some (Entry.link t) => mkdirpAux f fs (if t.absolute then [] else cur) (t.segs ++ rest)
        | some _ => Except.error PrimErr.enotdir

def mkdirpFS (fuel : Nat) (fs : FS) (p : PathExpr) : Except PrimErr FS :=
  mkdirpAux fuel fs [] p.segs

/-- Embedding of fs.readdirSync: the child names of the directory the
path resolves to, in map order. -/
def readdirFS (fuel : Nat) (fs : FS) (p : PathExpr) : Except PrimErr (List String) :=
  match realizeAux fuel fs [] p.segs true with
  | Except.error e => Except.error e
  | Except.ok c =>
    match lookupFS fs c with
    | some Entry.dir => Except.ok (childNames fs c)
    | some _ => Except.error PrimErr.enotdir
    | none => Except.error PrimErr.enoent

/-- Write file content at a destination path: follow symlinks in final
position (opening a link for writing writes its target), overwrite an
existing file, create a missing one, fail on a directory. -/
def writeFileFS : Nat → FS → PathExpr → String → Except PrimErr FS
  | 0, _, _, _ => Except.error PrimErr.fuel
  | Nat.succ f, fs, dest, content =>
    match realizeAux (Nat.succ f) fs [] (dirnamePE dest).segs true with
    | Except.error e => Except.error e
    | Except.ok pd =>
      match lookupFS fs pd with
      | some Entry.dir =>
        (match dest.segs.getLast? with
         | none => Except.error PrimErr.eisdir
         | some nm =>
           match lookupFS fs (pd ++ [nm]) with
           | none => Except.ok (setFS fs (pd ++ [nm]) (Entry.file content))
           | some (Entry.file _) => Except.ok (setFS fs (pd ++ [nm]) (Entry.file content))
           | some Entry.dir => Except.error PrimErr.eisdir
           | some Entry.other => Except.error PrimErr.einval
           | some (Entry.link t) =>
             writeFileFS f fs (PathExpr.mk true ((if t.absolute then [] else pd) ++ t.segs)) content)
      | some _ => Except.error PrimErr.enotdir
      | none => Except.error PrimErr.enoent

/-- Embedding of the single-file byte copier collaborator (copyFileSync):
read the bytes of the source following links, then write them at the
destination with overwrite semantics. -/
def copyFileSyncFS (fuel : Nat) (fs : FS) (src dest : PathExpr) : Except PrimErr FS :=
  match statNode fuel fs src true with
  | Except.error e => Except.error e
  | Except.ok (Entry.file content) => writeFileFS fuel fs dest content
  | Except.ok Entry.dir => Except.error PrimErr.eisdir
  | Except.ok _ => Except.error PrimErr.einval

/-- Options record of cpSync (CpSyncOptions in cpSync.ts); an absent
options object is the record with every flag false, matching the
optional-chaining defaults in the source. -/
structure CpSyncOptions where
  recursive : Bool
  verbatimSymlinks : Bool
  dereference : Bool
deriving DecidableEq, Repr

/-- Embedding of getSymlinkType (cpSync.ts lines 18-34): on platforms
other than win32 the file hint is returned at once; on win32 the raw
target is resolved against the directory of the link source when
relative, the resolved path is statted, and the dir hint is returned for
a directory with the file hint in every other case, a stat failure
included. -/
def getSymlinkType (win32 : Bool) (fuel : Nat) (fs : FS)
    (targetPath srcPath : PathExpr) : SymlinkKindHint :=
  if win32 = false then SymlinkKindHint.file
  else
    match statKind fuel fs
        (if targetPath.absolute then targetPath
         else PathExpr.mk true ((dirnamePE srcPath).segs ++ targetPath.segs)) with
    | Except.ok FKind.dir => SymlinkKindHint.dir
    | Except.ok _ => SymlinkKindHint.file
    | Except.error _ => SymlinkKindHint.file

/-- Embedding of the new-link-target computation of the preserve branch
(cpSync.ts lines 73-86): keep the raw target under verbatimSymlinks,
otherwise resolve it absolutely against the source link directory and
re-express it relative to the destination link directory, substituting
the dot path when the relative path comes out empty. -/
def computeNewLinkTarget (verbatimSymlinks : Bool) (linkTarget : PathExpr)
    (src dest : PathExpr) : PathExpr :=
  if verbatimSymlinks then linkTarget
  else
    let resolvedTarget : List String :=
      if linkTarget.absolute then normalizeSegs linkTarget.segs
      else normalizeSegs ((dirnamePE src).segs ++ linkTarget.segs)
    let rel := relativeSegs (normalizeSegs (dirnamePE dest).segs) resolvedTarget
    if rel = [] then PathExpr.mk false ["."] else PathExpr.mk false rel

/-- Embedding of the parent-directory ensure step (cpSync.ts lines 65-68
and 97-100): when the dirname of the destination does not exist under
existsSync it is created with the directory-ensure collaborator. -/
def ensureParentDir (fuel : Nat) (fs : FS) (dest : PathExpr) : Except PrimErr FS :=
  if existsSyncFS fuel fs (dirnamePE dest) then Except.ok fs
  else mkdirpFS fuel fs (dirnamePE dest)

/-- Entry loop of the directory branch (cpSync.ts lines 112-114),
abstracted over the step applied to each child: copy each entry in turn,
joining its name onto both paths, stopping at the first failure. -/
def copyEntriesWith (step : PathExpr → PathExpr → FS → FS × Option Err)
    (src dest : PathExpr) : List String → FS → FS × Option Err
  | [], fs => (fs, none)
  | name :: rest, fs =>
    match step (joinPE src name) (joinPE dest name) fs with
    | (fs1, none) => copyEntriesWith step src dest rest fs1
    | (fs1, some e) => (fs1, some e)

/-- Embedding of polyfillCpSync (cpSync.ts lines 40-116).  The state is
threaded explicitly and the first failure aborts, returning the state at
the moment the error was raised.  Fuel bounds the recursion depth; the
primitives of one invocation run with the current fuel, the recursive
calls with one unit less.  The options record and the platform flag are
fixed parameters: every recursive call passes them unchanged, as the
source does. -/
def polyfillCpSync (win32 : Bool) (options : CpSyncOptions) :
    Nat → PathExpr → PathExpr → FS → FS × Option Err
  | 0, _, _, fs => (fs, some (Err.prim PrimErr.fuel))
  | Nat.succ f, src, dest, fs =>
    match lstatKind (Nat.succ f) fs src with
    | Except.error e => (fs, some (Err.prim e))
    | Except.ok FKind.symlink =>
      if options.dereference then
        match realpathFS (Nat.succ f) fs src with
        | Except.error e => (fs, some (Err.prim e))
        | Except.ok realPath =>
          match statKind (Nat.succ f) fs (PathExpr.mk true realPath) with
          | Except.error e => (fs, some (Err.prim e))
          | Except.ok realKind =>
            if realKind = FKind.dir then
              polyfillCpSync win32 options f (PathExpr.mk true realPath) dest fs
            else
              match ensureParentDir (Nat.succ f) fs dest with
              | Except.error e => (fs, some (Err.prim e))
              | Except.ok fs1 =>
                match copyFileSyncFS (Nat.succ f) fs1 (PathExpr.mk true realPath) dest with
                | Except.error e => (fs1, some (Err.prim e))
                | Except.ok fs2 => (fs2, none)
      else
        match ensureParentDir (Nat.succ f) fs dest with
        | Except.error e => (fs, some (Err.prim e))
        | Except.ok fs1 =>
          match readlinkFS (Nat.succ f) fs1 src with
          | Except.error e => (fs1, some (Err.prim e))
          | Except.ok linkTarget =>
            match (if existsSyncFS (Nat.succ f) fs1 dest
                   then unlinkFS (Nat.succ f) fs1 dest
                   else Except.ok fs1) with
            | Except.error e => (fs1, some (Err.prim e))
            | Except.ok fs2 =>
              match symlinkFS (Nat.succ f) fs2
                  (computeNewLinkTarget options.verbatimSymlinks linkTarget src dest)
                  dest (getSymlinkType win32 (Nat.succ f) fs2 linkTarget src) with
              | Except.error e => (fs2, some (Err.prim e))
              | Except.ok fs3 => (fs3, none)
    | Except.ok FKind.file =>
      match ensureParentDir (Nat.succ f) fs dest with
      | Except.error e => (fs, some (Err.prim e))
      | Except.ok fs1 =>
        match copyFileSyncFS (Nat.succ f) fs1 src dest with
        | Except.error e => (fs1, some (Err.prim e))
        | Except.ok fs2 => (fs2, none)
    | Except.ok FKind.dir =>
      if options.recursive then
        match (if existsSyncFS (Nat.succ f) fs dest
               then Except.ok fs
               else mkdirpFS (Nat.succ f) fs dest) with
        | Except.error e => (fs, some (Err.prim e))
        | Except.ok fs1 =>
          match readdirFS (Nat.succ f) fs1 src with
          | Except.error e => (fs1, some (Err.prim e))
          | Except.ok entries =>
            copyEntriesWith (fun s d m => polyfillCpSync win32 options f s d m)
              src dest entries fs1
      else (fs, some (Err.eisdir src))
    | Except.ok FKind.other => (fs, none)

/-- Modelled from the spec: the new link target of section 4.1 step 2 in
its own words.  Under verbatimSymlinks the raw target is kept unchanged;
otherwise the raw target is resolved to an absolute path, relative to
the source link directory when the raw target is relative, that absolute
path is re-expressed relative to the destination link directory, and the
dot path is substituted when the resulting relative path is empty. -/
def specNewLinkTarget (verbatimSymlinks : Bool) (rawTarget : PathExpr)
    (src dest : PathExpr) : PathExpr :=
  if verbatimSymlinks then rawTarget
  else
    let absoluteTarget : List String :=
      if rawTarget.absolute then normalizeSegs rawTarget.segs
      else normalizeSegs ((dirnamePE src).segs ++ rawTarget.segs)
    let rel := relativeSegs (normalizeSegs (dirnamePE dest).segs) absoluteTarget
    if rel = [] then PathExpr.mk false ["."] else PathExpr.mk false rel

/-- Modelled from the spec: the symlink type resolver of section 4.2 in
its own words.  On platforms without a typed-link distinction the File
hint is returned as a side-effect-free short circuit; on platforms that
distinguish, the raw target is resolved to an absolute path, relative to
the directory containing the link source when not already absolute, the
resolved path is statted and the Directory hint is returned exactly when
it is a directory, the File hint in every other case, a stat failure
included. -/
def specResolveSymlinkTypeHint (win32 : Bool) (fuel : Nat) (fs : FS)
    (rawTarget linkSourcePath : PathExpr) : SymlinkKindHint :=
  if win32 then
    match statKind fuel fs
        (if rawTarget.absolute then rawTarget
         else PathExpr.mk true ((dirnamePE linkSourcePath).segs ++ rawTarget.segs)) with
    | Except.ok k => if k = FKind.dir then SymlinkKindHint.dir else SymlinkKindHint.file
    | Except.error _ => SymlinkKindHint.file
  else SymlinkKindHint.file

/-- Modelled from the spec: the dereference branch of section 4.1 step 2
in its own words.  Resolve the link to its real path, re-classify that
real path, and for a directory recurse on the resolved path with the
original destination, otherwise ensure the parent directory of the
destination and byte-copy the resolved file there.  No link is ever
created by this step: the symlink-preservation logic does not appear. -/
def specDereferenceStep (win32 : Bool) (fuel : Nat) (options : CpSyncOptions)
    (src dest : PathExpr) (fs : FS) : FS × Option Err :=
  match realpathFS (Nat.succ fuel) fs src with
  | Except.error e => (fs, some (Err.prim e))
  | Except.ok realPath =>
    match statKind (Nat.succ fuel) fs (PathExpr.mk true realPath) with
    | Except.error e => (fs, some (Err.prim e))
    | Except.ok realKind =>
      match realKind with
      | FKind.dir => polyfillCpSync win32 options fuel (PathExpr.mk true realPath) dest fs
      | _ =>
        match ensureParentDir (Nat.succ fuel) fs dest with
        | Except.error e => (fs, some (Err.prim e))
        | Except.ok fs1 =>
          match copyFileSyncFS (Nat.succ fuel) fs1 (PathExpr.mk true realPath) dest with
          | Except.error e => (fs1, some (Err.prim e))
          | Except.ok fs2 => (fs2, none)

/-- Options record with every flag unset, the embedding of a missing
options argument. -/
def noOptions : CpSyncOptions := CpSyncOptions.mk false false false

/-- Map extension: every binding of the first filesystem is present
unchanged in the second. -/
def subFS (fs fs' : FS) : Prop :=
  ∀ k e, lookupFS fs k = some e → lookupFS fs' k = some e

/-- Example tree: a file and a relative symlink pointing at it. -/
def fsSymlinkExample : FS :=
  [([], Entry.dir), (["t"], Entry.file "x"),
   (["s"], Entry.link (PathExpr.mk false ["t"]))]

/-- Example tree: a directory with one file inside. -/
def fsDirExample : FS :=
  [([], Entry.dir), (["a"], Entry.dir), (["a", "f"], Entry.file "c")]

/-- Example tree: a node that is neither file, directory nor symlink. -/
def fsOtherExample : FS :=
  [([], Entry.dir), (["f"], Entry.other)]

/-- Example tree: a live symlink source and a dangling symlink already
occupying the destination path. -/
def fsDanglingDestExample : FS :=
  [([], Entry.dir), (["t"], Entry.file "x"),
   (["s"], Entry.link (PathExpr.mk false ["t"])),
   (["d"], Entry.link (PathExpr.mk false ["missing"]))]

/-- Example tree: a directory whose only entry is a dangling symlink. -/
def fsDanglingTreeExample : FS :=
  [([], Entry.dir), (["a"], Entry.dir),
   (["a", "l"], Entry.link (PathExpr.mk false ["missing"]))]

def recursiveOptions : CpSyncOptions := CpSyncOptions.mk true false false

def dereferenceOptions : CpSyncOptions := CpSyncOptions.mk false false true

def srcS : PathExpr := PathExpr.mk true ["s"]

def destD : PathExpr := PathExpr.mk true ["d"]

def srcA : PathExpr := PathExpr.mk true ["a"]

def destB : PathExpr := PathExpr.mk true ["b"]

/-- The symlink example tree after a successful preserve-mode copy of
the link onto the destination path. -/
def fsSymlinkCopied : FS :=
  [([], Entry.dir), (["t"], Entry.file "x"),
   (["s"], Entry.link (PathExpr.mk false ["t"])),
   (["d"], Entry.link (PathExpr.mk false ["t"]))]

/-- Claim C2: a source classified as a directory by lstat, copied without
the recursive option, fails with the EISDIR error carrying the source
path, and the filesystem comes back exactly as it went in: the failure
precedes every mutation of that invocation. -/
theorem polyfill_dir_without_recursive_fails_eisdir
    (win32 : Bool) (options : CpSyncOptions) (f : Nat) (src dest : PathExpr) (fs : FS)
    (hk : lstatKind (f + 1) fs src = Except.ok FKind.dir)
    (hr : options.recursive = false) :
    polyfillCpSync win32 options (f + 1) src dest fs = (fs, some (Err.eisdir src)) := by
  simp only [polyfillCpSync, hk, hr]
  rfl

theorem polyfill_dir_without_recursive_fails_eisdir_witness :
    lstatKind (9 + 1) fsDirExample srcA = Except.ok FKind.dir ∧
    noOptions.recursive = false ∧
    polyfillCpSync false noOptions (9 + 1) srcA destB fsDirExample
      = (fsDirExample, some (Err.eisdir srcA)) :=
  ⟨rfl, rfl, polyfill_dir_without_recursive_fails_eisdir false noOptions 9 srcA destB fsDirExample rfl rfl⟩

/-- Claim C5: a nonexistent source path makes the copy fail with the
NotFound error and leaves the filesystem untouched: nothing is created
at the destination. -/
theorem polyfill_missing_source_fails_enoent
    (win32 : Bool) (options : CpSyncOptions) (f : Nat) (src dest : PathExpr) (fs : FS)
    (hk : lstatKind (f + 1) fs src = Except.error PrimErr.enoent) :
    polyfillCpSync win32 options (f + 1) src dest fs = (fs, some (Err.prim PrimErr.enoent)) := by
  simp only [polyfillCpSync, hk]

theorem polyfill_missing_source_fails_enoent_witness :
    lstatKind (9 + 1) fsDirExample (PathExpr.mk true ["zz"]) = Except.error PrimErr.enoent ∧
    polyfillCpSync false noOptions (9 + 1) (PathExpr.mk true ["zz"]) destB fsDirExample
      = (fsDirExample, some (Err.prim PrimErr.enoent)) :=
  ⟨rfl, polyfill_missing_source_fails_enoent false noOptions 9 (PathExpr.mk true ["zz"]) destB fsDirExample rfl⟩

/-- Claim C10: a source whose unresolved status is neither symlink, file
nor directory falls through every branch of the polyfill: the call
returns normally, with no error and no filesystem mutation. -/
theorem polyfill_other_kind_noop
    (win32 : Bool) (options : CpSyncOptions) (f : Nat) (src dest : PathExpr) (fs : FS)
    (hk : lstatKind (f + 1) fs src = Except.ok FKind.other) :
    polyfillCpSync win32 options (f + 1) src dest fs = (fs, none) := by
  simp only [polyfillCpSync, hk]

theorem polyfill_other_kind_noop_witness :
    lstatKind (9 + 1) fsOtherExample (PathExpr.mk true ["f"]) = Except.ok FKind.other ∧
    polyfillCpSync false noOptions (9 + 1) (PathExpr.mk true ["f"]) destB fsOtherExample
      = (fsOtherExample, none) :=
  ⟨rfl, polyfill_other_kind_noop false noOptions 9 (PathExpr.mk true ["f"]) destB fsOtherExample rfl⟩

/-- Claim C4, evaluation at the failing input: with a dangling symlink
already occupying the destination, the existsSync guard of the removal
step follows the link, reports false, the stale entry is not removed,
and the subsequent link creation fails with EEXIST instead of
overwriting; the filesystem is returned unchanged. -/
theorem polyfill_dangling_dest_link_not_removed :
    existsSyncFS 10 fsDanglingDestExample destD = false ∧
    polyfillCpSync false noOptions 10 srcS destD fsDanglingDestExample
      = (fsDanglingDestExample, some (Err.prim PrimErr.eexist)) :=
  ⟨rfl, rfl⟩

/-- Claim C8, evaluation at the failing input: copying a directory that
contains a dangling symlink succeeds on a fresh destination, but the
identical second invocation fails with EEXIST, because the copied link
does not exist under the link-following existsSync guard and is
therefore never removed before re-creation. -/
theorem polyfill_second_run_fails_on_dangling_link :
    (polyfillCpSync false recursiveOptions 20 srcA destB fsDanglingTreeExample).2 = none ∧
    (polyfillCpSync false recursiveOptions 20 srcA destB
        (polyfillCpSync false recursiveOptions 20 srcA destB fsDanglingTreeExample).1).2
      = some (Err.prim PrimErr.eexist) :=
  ⟨rfl, rfl⟩

theorem lookupFS_setFS_self (fs : FS) (p : List String) (e : Entry) :
    lookupFS (setFS fs p e) p = some e := by
  induction fs with
  | nil => simp [setFS, lookupFS]
  | cons kv rest ih =>
    by_cases h : kv.1 = p
    · simp [setFS, h, lookupFS]
    · simp [setFS, h, lookupFS, ih]

theorem lookupFS_setFS_ne (fs : FS) (p k : List String) (e : Entry) (h : k ≠ p) :
    lookupFS (setFS fs p e) k = lookupFS fs k := by
  induction fs with
  | nil =>
    simp only [setFS, lookupFS]
    rw [if_neg (fun hh => h hh.symm)]
  | cons kv rest ih =>
    by_cases h1 : kv.1 = p
    · simp only [setFS, if_pos h1, lookupFS]
      rw [if_neg (fun hh => h hh.symm), if_neg (by rw [h1]; exact fun hh => h hh.symm)]
    · simp only [setFS, if_neg h1, lookupFS]
      by_cases h2 : kv.1 = k
      · rw [if_pos h2, if_pos h2]
      · rw [if_neg h2, if_neg h2]; exact ih

theorem subFS_refl (fs : FS) : subFS fs fs := fun _ _ h => h

theorem subFS_trans {a b c : FS} (h1 : subFS a b) (h2 : subFS b c) : subFS a c :=
  fun k e h => h2 k e (h1 k e h)

theorem subFS_setFS_new (fs : FS) (p : List String) (e : Entry)
    (h : lookupFS fs p = none) : subFS fs (setFS fs p e) := by
  intro k v hk
  have hne : k ≠ p := by
    intro heq
    rw [heq, h] at hk
    cases hk
  rw [lookupFS_setFS_ne fs p k e hne]
  exact hk

theorem mkdirpAux_sub :
    ∀ (f : Nat) (fs : FS) (cur segs : List String) (fs' : FS),
      mkdirpAux f fs cur segs = Except.ok fs' → subFS fs fs' := by
  intro f
  induction f with
  | zero =>
    intro fs cur segs fs' h
    simp [mkdirpAux] at h
  | succ f ih =>
    intro fs cur segs fs' h
    cases segs with
    | nil =>
      simp only [mkdirpAux] at h
      cases h
      exact subFS_refl _
    | cons seg rest =>
      simp only [mkdirpAux] at h
      by_cases h1 : seg = "" ∨ seg = "."
      · rw [if_pos h1] at h
        exact ih fs cur rest fs' h
      · rw [if_neg h1] at h
        by_cases h2 : seg = ".."
        · rw [if_pos h2] at h
          exact ih fs cur.dropLast rest fs' h
        · rw [if_neg h2] at h
          cases h3 : lookupFS fs (cur ++ [seg]) with
          | none =>
            rw [h3] at h
            exact subFS_trans (subFS_setFS_new fs (cur ++ [seg]) Entry.dir h3)
              (ih _ _ rest fs' h)
          | some e =>
            rw [h3] at h
            cases e with
            | dir => exact ih fs (cur ++ [seg]) rest fs' h
            | link t => exact ih fs _ _ fs' h
            | file content => cases h
            | other => cases h

theorem realizeAux_stable (fs fs' : FS) (hsub : subFS fs fs') :
    ∀ (f : Nat) (cur segs : List String) (fl : Bool) (c : List String),
      realizeAux f fs cur segs fl = Except.ok c →
      realizeAux f fs' cur segs fl = Except.ok c := by
  intro f
  induction f with
  | zero => intro cur segs fl c h; simp [realizeAux] at h
  | succ f ih =>
    intro cur segs fl c h
    cases segs with
    | nil => simpa [realizeAux] using h
    | cons seg rest =>
      simp only [realizeAux] at h ⊢
      by_cases h1 : seg = "" ∨ seg = "."
      · rw [if_pos h1] at h ⊢; exact ih _ _ _ _ h
      · rw [if_neg h1] at h ⊢
        by_cases h2 : seg = ".."
        · rw [if_pos h2] at h ⊢; exact ih _ _ _ _ h
        · rw [if_neg h2] at h ⊢
          cases h3 : lookupFS fs (cur ++ [seg]) with
          | none => simp only [h3] at h; cases h
          | some e =>
            cases e with
            | dir =>
              simp only [h3] at h
              simp only [hsub _ _ h3]
              exact ih _ _ _ _ h
            | link t =>
              simp only [h3] at h
              simp only [hsub _ _ h3]
              by_cases h4 : rest = [] ∧ fl = false
              · rw [if_pos h4] at h ⊢; exact h
              · rw [if_neg h4] at h ⊢; exact ih _ _ _ _ h
            | file content =>
              simp only [h3] at h
              simp only [hsub _ _ h3]
              by_cases h4 : rest = []
              · rw [if_pos h4] at h ⊢; exact h
              · rw [if_neg h4] at h; cases h
            | other =>
              simp only [h3] at h
              simp only [hsub _ _ h3]
              by_cases h4 : rest = []
              · rw [if_pos h4] at h ⊢; exact h
              · rw [if_neg h4] at h; cases h

theorem readlinkFS_stable (f : Nat) (fs fs' : FS) (p t : PathExpr)
    (hsub : subFS fs fs') (h : readlinkFS f fs p = Except.ok t) :
    readlinkFS f fs' p = Except.ok t := by
  simp only [readlinkFS] at h ⊢
  cases h1 : realizeAux f fs [] p.segs false with
  | error e => simp only [h1] at h; cases h
  | ok c =>
    simp only [h1] at h
    simp only [realizeAux_stable fs fs' hsub f [] p.segs false c h1]
    cases h2 : lookupFS fs c with
    | none => simp only [h2] at h; cases h
    | some e =>
      cases e with
      | link t2 =>
        simp only [h2] at h
        simp only [hsub _ _ h2]
        exact h
      | dir => simp only [h2] at h; cases h
      | file content => simp only [h2] at h; cases h
      | other => simp only [h2] at h; cases h

theorem ensureParentDir_sub (f : Nat) (fs : FS) (dest : PathExpr) (fs' : FS)
    (h : ensureParentDir f fs dest = Except.ok fs') : subFS fs fs' := by
  unfold ensureParentDir at h
  cases h1 : existsSyncFS f fs (dirnamePE dest) with
  | true =>
    rw [h1] at h
    simp at h
    cases h
    exact subFS_refl _
  | false =>
    rw [h1] at h
    simp at h
    exact mkdirpAux_sub f fs [] (dirnamePE dest).segs fs' h

theorem symlinkFS_ok_lookup (f : Nat) (fs : FS) (t p : PathExpr)
    (hint : SymlinkKindHint) (fs' : FS)
    (h : symlinkFS f fs t p hint = Except.ok fs') :
    ∃ c, lookupFS fs' c = some (Entry.link t) := by
  unfold symlinkFS at h
  cases h1 : realizeAux f fs [] (dirnamePE p).segs true with
  | error e => simp only [h1] at h; cases h
  | ok pd =>
    simp only [h1] at h
    cases h2 : lookupFS fs pd with
    | none => simp only [h2] at h; cases h
    | some e =>
      cases e with
      | dir =>
        simp only [h2] at h
        cases h3 : p.segs.getLast? with
        | none => simp only [h3] at h; cases h
        | some nm =>
          simp only [h3] at h
          by_cases h4 : (lookupFS fs (pd ++ [nm])).isSome
          · rw [if_pos h4] at h; cases h
          · rw [if_neg h4] at h
            cases h
            exact ⟨pd ++ [nm], lookupFS_setFS_self fs (pd ++ [nm]) (Entry.link t)⟩
      | link t2 => simp only [h2] at h; cases h
      | file content => simp only [h2] at h; cases h
      | other => simp only [h2] at h; cases h

/-- More fuel never changes a successful path resolution. -/
theorem realizeAux_fuel_mono :
    ∀ (f g : Nat), f ≤ g → ∀ (fs : FS) (cur segs : List String) (fl : Bool) (c : List String),
      realizeAux f fs cur segs fl = Except.ok c →
      realizeAux g fs cur segs fl = Except.ok c := by
  intro f
  induction f with
  | zero => intro g _ fs cur segs fl c h; simp [realizeAux] at h
  | succ f ih =>
    intro g hg fs cur segs fl c h
    cases g with
    | zero => exact absurd hg (by omega)
    | succ g2 =>
      have hg2 : f ≤ g2 := by omega
      cases segs with
      | nil => simpa [realizeAux] using h
      | cons seg rest =>
        simp only [realizeAux] at h ⊢
        by_cases h1 : seg = "" ∨ seg = "."
        · rw [if_pos h1] at h ⊢; exact ih g2 hg2 _ _ _ _ _ h
        · rw [if_neg h1] at h ⊢
          by_cases h2 : seg = ".."
          · rw [if_pos h2] at h ⊢; exact ih g2 hg2 _ _ _ _ _ h
          · rw [if_neg h2] at h ⊢
            cases h3 : lookupFS fs (cur ++ [seg]) with
            | none => simp only [h3] at h; cases h
            | some e =>
              cases e with
              | dir =>
                simp only [h3] at h ⊢
                exact ih g2 hg2 _ _ _ _ _ h
              | link t =>
                simp only [h3] at h ⊢
                by_cases h4 : rest = [] ∧ fl = false
                · rw [if_pos h4] at h ⊢; exact h
                · rw [if_neg h4] at h ⊢; exact ih g2 hg2 _ _ _ _ _ h
              | file content =>
                simp only [h3] at h ⊢
                by_cases h4 : rest = []
                · rw [if_pos h4] at h ⊢; exact h
                · rw [if_neg h4] at h; cases h
              | other =>
                simp only [h3] at h ⊢
                by_cases h4 : rest = []
                · rw [if_pos h4] at h ⊢; exact h
                · rw [if_neg h4] at h; cases h

/-- Composition of path resolution: a resolution that lands on a
directory extends along further nonempty segments. -/
theorem realizeAux_append :
    ∀ (f : Nat) (fs : FS) (cur a pd : List String),
      realizeAux f fs cur a true = Except.ok pd →
      lookupFS fs pd = some Entry.dir →
      ∀ (g : Nat) (b : List String) (fl : Bool) (c : List String), b ≠ [] →
        realizeAux g fs pd b fl = Except.ok c →
        realizeAux (f + g) fs cur (a ++ b) fl = Except.ok c := by
  intro f
  induction f with
  | zero => intro fs cur a pd h; simp [realizeAux] at h
  | succ f ih =>
    intro fs cur a pd h hdir g b fl c hb hbrun
    cases a with
    | nil =>
      simp only [realizeAux] at h
      cases h
      simp only [List.nil_append]
      exact realizeAux_fuel_mono g (Nat.succ f + g) (by omega) fs cur b fl c hbrun
    | cons seg rest =>
      have hfg : Nat.succ f + g = Nat.succ (f + g) := by omega
      rw [hfg]
      simp only [List.cons_append]
      simp only [realizeAux] at h ⊢
      by_cases h1 : seg = "" ∨ seg = "."
      · rw [if_pos h1] at h ⊢
        exact ih fs cur rest pd h hdir g b fl c hb hbrun
      · rw [if_neg h1] at h ⊢
        by_cases h2 : seg = ".."
        · rw [if_pos h2] at h ⊢
          exact ih fs cur.dropLast rest pd h hdir g b fl c hb hbrun
        · rw [if_neg h2] at h ⊢
          cases h3 : lookupFS fs (cur ++ [seg]) with
          | none => simp only [h3] at h; cases h
          | some e =>
            cases e with
            | dir =>
              simp only [h3] at h ⊢
              exact ih fs (cur ++ [seg]) rest pd h hdir g b fl c hb hbrun
            | link t =>
              simp only [h3] at h ⊢
              rw [if_neg (by simp)] at h
              rw [if_neg (fun hcon => hb (List.append_eq_nil.mp hcon.1).2)]
              have hrec := ih fs (if t.absolute = true then [] else cur)
                (t.segs ++ rest) pd h hdir g b fl c hb hbrun
              rw [List.append_assoc] at hrec
              exact hrec
            | file content =>
              simp only [h3] at h
              by_cases h4 : rest = []
              · rw [if_pos h4] at h
                cases h
                rw [h3] at hdir
                simp at hdir
              · rw [if_neg h4] at h; cases h
            | other =>
              simp only [h3] at h
              by_cases h4 : rest = []
              · rw [if_pos h4] at h
                cases h
                rw [h3] at hdir
                simp at hdir
              · rw [if_neg h4] at h; cases h

/-- A list with a known last element is its dropLast followed by it. -/
theorem dropLast_append_getLast_eq :
    ∀ (l : List String) (a : String), l.getLast? = some a → l.dropLast ++ [a] = l := by
  intro l
  induction l with
  | nil => intro a h; cases h
  | cons x xs ih =>
    intro a h
    cases xs with
    | nil =>
      have hx : x = a := by simpa [List.getLast?] using h
      subst hx
      rfl
    | cons y ys =>
      have h2 : (y :: ys).getLast? = some a := h
      have ih2 := ih a h2
      show x :: ((y :: ys).dropLast ++ [a]) = x :: (y :: ys)
      rw [ih2]

/-- A successful symlink creation makes a read of the link at the
created path return exactly the stored target (one extra unit of fuel
pays for the final path component). -/
theorem symlinkFS_ok_readlink (fuel : Nat) (fs : FS) (t p : PathExpr)
    (hint : SymlinkKindHint) (fs' : FS) (nm : String)
    (h : symlinkFS fuel fs t p hint = Except.ok fs')
    (hnm : p.segs.getLast? = some nm)
    (hne : ¬(nm = "" ∨ nm = ".")) (hne2 : ¬nm = "..") :
    readlinkFS (fuel + 1) fs' p = Except.ok t := by
  unfold symlinkFS at h
  cases h1 : realizeAux fuel fs [] (dirnamePE p).segs true with
  | error e => simp only [h1] at h; cases h
  | ok pd =>
    simp only [h1] at h
    cases h2 : lookupFS fs pd with
    | none => simp only [h2] at h; cases h
    | some e =>
      cases e with
      | dir =>
        simp only [h2, hnm] at h
        by_cases h4 : (lookupFS fs (pd ++ [nm])).isSome
        · rw [if_pos h4] at h; cases h
        · rw [if_neg h4] at h
          cases h
          have hnone : lookupFS fs (pd ++ [nm]) = none := by
            cases hx : lookupFS fs (pd ++ [nm]) with
            | none => rfl
            | some e2 => rw [hx] at h4; simp at h4
          have hsub : subFS fs (setFS fs (pd ++ [nm]) (Entry.link t)) :=
            subFS_setFS_new fs (pd ++ [nm]) (Entry.link t) hnone
          have hreal1 : realizeAux fuel (setFS fs (pd ++ [nm]) (Entry.link t)) []
              (dirnamePE p).segs true = Except.ok pd :=
            realizeAux_stable fs _ hsub fuel [] (dirnamePE p).segs true pd h1
          have hdir2 : lookupFS (setFS fs (pd ++ [nm]) (Entry.link t)) pd
              = some Entry.dir := hsub pd Entry.dir h2
          have hstep : realizeAux 1 (setFS fs (pd ++ [nm]) (Entry.link t)) pd [nm] false
              = Except.ok (pd ++ [nm]) := by
            show realizeAux (Nat.succ 0) (setFS fs (pd ++ [nm]) (Entry.link t)) pd [nm] false
              = Except.ok (pd ++ [nm])
            simp only [realizeAux]
            rw [if_neg hne, if_neg hne2]
            simp only [lookupFS_setFS_self]
            simp
          have happ := realizeAux_append fuel (setFS fs (pd ++ [nm]) (Entry.link t)) []
            (dirnamePE p).segs pd hreal1 hdir2 1 [nm] false (pd ++ [nm]) (by simp) hstep
          have hsegs : (dirnamePE p).segs ++ [nm] = p.segs := by
            simp only [dirnamePE]
            exact dropLast_append_getLast_eq p.segs nm hnm
          rw [hsegs] at happ
          simp only [readlinkFS, happ, lookupFS_setFS_self]
      | link t2 => simp only [h2] at h; cases h
      | file content => simp only [h2] at h; cases h
      | other => simp only [h2] at h; cases h

/-- A path whose link read succeeds classifies as a symlink under the
non-following stat. -/
theorem lstat_symlink_of_readlink (fuel : Nat) (fs : FS) (p t : PathExpr)
    (h : readlinkFS fuel fs p = Except.ok t) :
    lstatKind fuel fs p = Except.ok FKind.symlink := by
  simp only [readlinkFS] at h
  simp only [lstatKind, statNode]
  cases h1 : realizeAux fuel fs [] p.segs false with
  | error e => simp only [h1] at h; cases h
  | ok c =>
    simp only [h1] at h ⊢
    cases h2 : lookupFS fs c with
    | none => simp only [h2] at h; cases h
    | some e =>
      cases e with
      | link t2 => simp only [h2]; rfl
      | dir => simp only [h2] at h; cases h
      | file content => simp only [h2] at h; cases h
      | other => simp only [h2] at h; cases h

/-- The new-link-target computation of the code coincides with the
formula of the specification. -/
theorem computeNewLinkTarget_eq_spec (v : Bool) (raw src dest : PathExpr) :
    computeNewLinkTarget v raw src dest = specNewLinkTarget v raw src dest := rfl

/-- Claim C7: the symlink type resolver agrees everywhere with the
resolver described by the specification: a total function that never
propagates a failure, returning the File hint on platforms without a
typed-link distinction, and on win32 the Directory hint exactly when the
resolved raw target stats as a directory, the File hint in every other
case including a failed stat. -/
theorem getSymlinkType_matches_spec_resolver
    (win32 : Bool) (fuel : Nat) (fs : FS) (rawTarget linkSourcePath : PathExpr) :
    getSymlinkType win32 fuel fs rawTarget linkSourcePath
      = specResolveSymlinkTypeHint win32 fuel fs rawTarget linkSourcePath := by
  cases win32 with
  | false => rfl
  | true =>
    simp only [getSymlinkType, specResolveSymlinkTypeHint]
    cases h : statKind fuel fs
        (if rawTarget.absolute then rawTarget
         else PathExpr.mk true ((dirnamePE linkSourcePath).segs ++ rawTarget.segs)) with
    | error e => simp [h]
    | ok k => cases k <;> simp [h]

/-- Claim C3: with dereference set, a symlink source is processed exactly
as the specification describes: resolve to the real path, re-classify,
recurse on the resolved directory with the original destination, or
ensure the parent and byte-copy the resolved file; the step never
reaches the symlink-preservation logic and never materializes a link at
the destination. -/
theorem polyfill_dereference_matches_spec_step
    (win32 : Bool) (options : CpSyncOptions) (f : Nat) (src dest : PathExpr) (fs : FS)
    (hk : lstatKind (f + 1) fs src = Except.ok FKind.symlink)
    (hd : options.dereference = true) :
    polyfillCpSync win32 options (f + 1) src dest fs
      = specDereferenceStep win32 f options src dest fs := by
  simp only [polyfillCpSync, specDereferenceStep, hk, hd, if_pos]
  cases h1 : realpathFS (Nat.succ f) fs src with
  | error e => rfl
  | ok realPath =>
    dsimp only
    cases h2 : statKind (Nat.succ f) fs (PathExpr.mk true realPath) with
    | error e => rfl
    | ok realKind =>
      dsimp only
      cases realKind <;> rfl

theorem polyfill_dereference_matches_spec_step_witness :
    lstatKind (9 + 1) fsSymlinkExample srcS = Except.ok FKind.symlink ∧
    dereferenceOptions.dereference = true ∧
    polyfillCpSync false dereferenceOptions (9 + 1) srcS destD fsSymlinkExample
      = specDereferenceStep false 9 dereferenceOptions srcS destD fsSymlinkExample :=
  ⟨rfl, rfl, polyfill_dereference_matches_spec_step false dereferenceOptions 9 srcS destD
    fsSymlinkExample rfl rfl⟩

/-- Claim C1: when a symlink source is copied without dereference and the
call succeeds, reading the link at the destination in the resulting
state returns exactly the target the specification prescribes: the raw
target unchanged under verbatimSymlinks, and otherwise the raw target
resolved against the source link directory and re-expressed relative to
the destination link directory, with the dot path substituted for an
empty result.  The destination path is assumed to end in a proper entry
name. -/
theorem polyfill_preserved_symlink_target_spec
    (win32 : Bool) (options : CpSyncOptions) (f : Nat) (src dest : PathExpr)
    (fs fs' : FS) (raw : PathExpr) (nm : String)
    (hk : lstatKind (f + 1) fs src = Except.ok FKind.symlink)
    (hd : options.dereference = false)
    (hr : readlinkFS (f + 1) fs src = Except.ok raw)
    (hnm : dest.segs.getLast? = some nm)
    (hn0 : nm ≠ "") (hn1 : nm ≠ ".") (hn2 : nm ≠ "..")
    (hs : polyfillCpSync win32 options (f + 1) src dest fs = (fs', none)) :
    readlinkFS (f + 2) fs' dest
      = Except.ok (specNewLinkTarget options.verbatimSymlinks raw src dest) := by
  simp only [polyfillCpSync, hk, hd, Bool.false_eq_true, if_false] at hs
  cases hep : ensureParentDir (Nat.succ f) fs dest with
  | error e => simp only [hep] at hs; simp at hs
  | ok fs1 =>
    have hr1 : readlinkFS (f + 1) fs1 src = Except.ok raw :=
      readlinkFS_stable (f + 1) fs fs1 src raw
        (ensureParentDir_sub (Nat.succ f) fs dest fs1 hep) hr
    simp only [hep, hr1] at hs
    cases hun : (if existsSyncFS (Nat.succ f) fs1 dest
                 then unlinkFS (Nat.succ f) fs1 dest
                 else Except.ok fs1) with
    | error e => simp only [hun] at hs; simp at hs
    | ok fs2 =>
      simp only [hun] at hs
      cases hsy : symlinkFS (Nat.succ f) fs2
          (computeNewLinkTarget options.verbatimSymlinks raw src dest) dest
          (getSymlinkType win32 (Nat.succ f) fs2 raw src) with
      | error e => simp only [hsy] at hs; simp at hs
      | ok fs3 =>
        simp only [hsy, Prod.mk.injEq, and_true] at hs
        rw [← hs]
        exact symlinkFS_ok_readlink (Nat.succ f) fs2
          (computeNewLinkTarget options.verbatimSymlinks raw src dest) dest
          (getSymlinkType win32 (Nat.succ f) fs2 raw src) fs3 nm hsy hnm
          (fun hc => hc.elim hn0 hn1) hn2

theorem polyfill_preserved_symlink_target_spec_witness :
    lstatKind (9 + 1) fsSymlinkExample srcS = Except.ok FKind.symlink ∧
    noOptions.dereference = false ∧
    readlinkFS (9 + 1) fsSymlinkExample srcS = Except.ok (PathExpr.mk false ["t"]) ∧
    destD.segs.getLast? = some "d" ∧
    polyfillCpSync false noOptions (9 + 1) srcS destD fsSymlinkExample
      = (fsSymlinkCopied, none) ∧
    readlinkFS (9 + 2) fsSymlinkCopied destD
      = Except.ok (specNewLinkTarget noOptions.verbatimSymlinks
          (PathExpr.mk false ["t"]) srcS destD) :=
  ⟨rfl, rfl, rfl, rfl, rfl,
    polyfill_preserved_symlink_target_spec false noOptions 9 srcS destD
      fsSymlinkExample fsSymlinkCopied (PathExpr.mk false ["t"]) "d"
      rfl rfl rfl rfl (by decide) (by decide) (by decide) rfl⟩

/-- The preserve branch either fails with a pass-through primitive error
or succeeds with the destination path holding a readable symlink in the
resulting state. -/
theorem preserve_branch_shape
    (win32 : Bool) (options : CpSyncOptions) (f : Nat) (src dest : PathExpr) (fs : FS)
    (nm : String)
    (hk : lstatKind (f + 1) fs src = Except.ok FKind.symlink)
    (hd : options.dereference = false)
    (hnm : dest.segs.getLast? = some nm)
    (hne : ¬(nm = "" ∨ nm = ".")) (hne2 : ¬nm = "..") :
    (∃ e fsa, polyfillCpSync win32 options (f + 1) src dest fs = (fsa, some (Err.prim e))) ∨
    (∃ fsr t, polyfillCpSync win32 options (f + 1) src dest fs = (fsr, none) ∧
        readlinkFS (f + 2) fsr dest = Except.ok t) := by
  simp only [polyfillCpSync, hk, hd, Bool.false_eq_true, if_false]
  cases h1 : ensureParentDir (Nat.succ f) fs dest with
  | error e => exact Or.inl ⟨e, fs, rfl⟩
  | ok fs1 =>
    dsimp only
    cases h2 : readlinkFS (Nat.succ f) fs1 src with
    | error e => exact Or.inl ⟨e, fs1, rfl⟩
    | ok linkTarget =>
      dsimp only
      cases h3 : (if existsSyncFS (Nat.succ f) fs1 dest
                  then unlinkFS (Nat.succ f) fs1 dest
                  else Except.ok fs1) with
      | error e => exact Or.inl ⟨e, fs1, rfl⟩
      | ok fs2 =>
        dsimp only
        cases h4 : symlinkFS (Nat.succ f) fs2
            (computeNewLinkTarget options.verbatimSymlinks linkTarget src dest) dest
            (getSymlinkType win32 (Nat.succ f) fs2 linkTarget src) with
        | error e => exact Or.inl ⟨e, fs2, rfl⟩
        | ok fs3 =>
          dsimp only
          exact Or.inr ⟨fs3,
            computeNewLinkTarget options.verbatimSymlinks linkTarget src dest, rfl,
            symlinkFS_ok_readlink (Nat.succ f) fs2
              (computeNewLinkTarget options.verbatimSymlinks linkTarget src dest) dest
              (getSymlinkType win32 (Nat.succ f) fs2 linkTarget src) fs3 nm h4 hnm
              hne hne2⟩

/-- Claim C6: the initial classification comes from the non-following
stat, so a symlink source outside the dereference branch is never
processed as its target kind: the call can never raise the directory
rejection error, and on success the destination path itself, inspected
without following, is a symbolic link: neither a regular file written by
the byte copier nor a directory produced by a tree copy.  The
destination path is assumed to end in a proper entry name. -/
theorem polyfill_symlink_not_treated_as_target_kind
    (win32 : Bool) (options : CpSyncOptions) (f : Nat) (src dest : PathExpr) (fs : FS)
    (nm : String)
    (hk : lstatKind (f + 1) fs src = Except.ok FKind.symlink)
    (hd : options.dereference = false)
    (hnm : dest.segs.getLast? = some nm)
    (hn0 : nm ≠ "") (hn1 : nm ≠ ".") (hn2 : nm ≠ "..") :
    (∀ p, (polyfillCpSync win32 options (f + 1) src dest fs).2 ≠ some (Err.eisdir p)) ∧
    ((polyfillCpSync win32 options (f + 1) src dest fs).2 = none →
      lstatKind (f + 2) (polyfillCpSync win32 options (f + 1) src dest fs).1 dest
        = Except.ok FKind.symlink) := by
  rcases preserve_branch_shape win32 options f src dest fs nm hk hd hnm
      (fun hc => hc.elim hn0 hn1) hn2 with
    ⟨e, fsa, heq⟩ | ⟨fsr, t, heq, hrd⟩
  · constructor
    · intro p hcon
      rw [heq] at hcon
      simp at hcon
    · intro hnone
      rw [heq] at hnone
      simp at hnone
  · constructor
    · intro p hcon
      rw [heq] at hcon
      simp at hcon
    · intro _
      rw [heq]
      exact lstat_symlink_of_readlink (f + 2) fsr dest t hrd

theorem polyfill_symlink_not_treated_as_target_kind_witness :
    lstatKind (9 + 1) fsSymlinkExample srcS = Except.ok FKind.symlink ∧
    noOptions.dereference = false ∧
    destD.segs.getLast? = some "d" ∧
    (∀ p, (polyfillCpSync false noOptions (9 + 1) srcS destD fsSymlinkExample).2
        ≠ some (Err.eisdir p)) ∧
    ((polyfillCpSync false noOptions (9 + 1) srcS destD fsSymlinkExample).2 = none →
      lstatKind (9 + 2)
          (polyfillCpSync false noOptions (9 + 1) srcS destD fsSymlinkExample).1 destD
        = Except.ok FKind.symlink) :=
  ⟨rfl, rfl, rfl,
    (polyfill_symlink_not_treated_as_target_kind false noOptions 9 srcS destD
      fsSymlinkExample "d" rfl rfl rfl (by decide) (by decide) (by decide)).1,
    (polyfill_symlink_not_treated_as_target_kind false noOptions 9 srcS destD
      fsSymlinkExample "d" rfl rfl rfl (by decide) (by decide) (by decide)).2⟩

/-- The entry loop cannot produce the directory-rejection error when the
per-entry step cannot. -/
theorem copyEntriesWith_no_eisdir
    (step : PathExpr → PathExpr → FS → FS × Option Err)
    (hstep : ∀ s d m q, (step s d m).2 ≠ some (Err.eisdir q)) :
    ∀ (entries : List String) (src dest : PathExpr) (fs : FS) (q : PathExpr),
      (copyEntriesWith step src dest entries fs).2 ≠ some (Err.eisdir q) := by
  intro entries
  induction entries with
  | nil => intro src dest fs q; simp [copyEntriesWith]
  | cons name rest ih =>
    intro src dest fs q
    simp only [copyEntriesWith]
    cases h1 : step (joinPE src name) (joinPE dest name) fs with
    | mk fs1 oe =>
      cases oe with
      | none =>
        dsimp only
        exact ih src dest fs1 q
      | some e =>
        dsimp only
        intro hcon
        exact hstep (joinPE src name) (joinPE dest name) fs q (by rw [h1]; exact hcon)

/-- Claim C9: the options record is threaded unchanged through every
recursive call, so once the top-level call carries the recursive flag
the directory-rejection EISDIR failure cannot arise at any level of the
traversal: no outcome of the polyfill is that handcrafted error. -/
theorem polyfill_recursive_never_raises_copy_eisdir
    (win32 : Bool) (options : CpSyncOptions) (hrec : options.recursive = true) :
    ∀ (fuel : Nat) (src dest : PathExpr) (fs : FS) (q : PathExpr),
      (polyfillCpSync win32 options fuel src dest fs).2 ≠ some (Err.eisdir q) := by
  intro fuel
  induction fuel with
  | zero => intro src dest fs q; simp [polyfillCpSync]
  | succ f ih =>
    intro src dest fs q
    simp only [polyfillCpSync]
    cases hk : lstatKind (Nat.succ f) fs src with
    | error e => simp
    | ok k =>
      cases k with
      | symlink =>
        dsimp only
        by_cases hd : options.dereference = true
        · rw [if_pos hd]
          cases h1 : realpathFS (Nat.succ f) fs src with
          | error e => simp
          | ok realPath =>
            dsimp only
            cases h2 : statKind (Nat.succ f) fs (PathExpr.mk true realPath) with
            | error e => simp
            | ok realKind =>
              dsimp only
              by_cases h3 : realKind = FKind.dir
              · rw [if_pos h3]
                exact ih (PathExpr.mk true realPath) dest fs q
              · rw [if_neg h3]
                cases h4 : ensureParentDir (Nat.succ f) fs dest with
                | error e => simp
                | ok fs1 =>
                  dsimp only
                  cases h5 : copyFileSyncFS (Nat.succ f) fs1 (PathExpr.mk true realPath) dest with
                  | error e => simp
                  | ok fs2 => simp
        · rw [if_neg hd]
          cases h1 : ensureParentDir (Nat.succ f) fs dest with
          | error e => simp
          | ok fs1 =>
            dsimp only
            cases h2 : readlinkFS (Nat.succ f) fs1 src with
            | error e => simp
            | ok linkTarget =>
              dsimp only
              cases h3 : (if existsSyncFS (Nat.succ f) fs1 dest
                          then unlinkFS (Nat.succ f) fs1 dest
                          else Except.ok fs1) with
              | error e => simp
              | ok fs2 =>
                dsimp only
                cases h4 : symlinkFS (Nat.succ f) fs2
                    (computeNewLinkTarget options.verbatimSymlinks linkTarget src dest) dest
                    (getSymlinkType win32 (Nat.succ f) fs2 linkTarget src) with
                | error e => simp
                | ok fs3 => simp
      | file =>
        dsimp only
        cases h1 : ensureParentDir (Nat.succ f) fs dest with
        | error e => simp
        | ok fs1 =>
          dsimp only
          cases h2 : copyFileSyncFS (Nat.succ f) fs1 src dest with
          | error e => simp
          | ok fs2 => simp
      | dir =>
        dsimp only
        rw [if_pos hrec]
        cases h1 : (if existsSyncFS (Nat.succ f) fs dest
                    then Except.ok fs
                    else mkdirpFS (Nat.succ f) fs dest) with
        | error e => simp
        | ok fs1 =>
          dsimp only
          cases h2 : readdirFS (Nat.succ f) fs1 src with
          | error e => simp
          | ok entries =>
            dsimp only
            exact copyEntriesWith_no_eisdir
              (fun s d m => polyfillCpSync win32 options f s d m)
              (fun s d m q2 => ih s d m q2) entries src dest fs1 q
      | other => simp

theorem polyfill_recursive_never_raises_copy_eisdir_witness :
    recursiveOptions.recursive = true ∧
    (polyfillCpSync false recursiveOptions 10 srcA destB fsDirExample).2
      ≠ some (Err.eisdir srcA) :=
  ⟨rfl, polyfill_recursive_never_raises_copy_eisdir false recursiveOptions rfl
    10 srcA destB fsDirExample srcA⟩
